import Mathlib

/-!
Verification of the WDL front-end lowering engine (`WDL/_parser.py`).

The Python source is shallowly embedded: each transformer method of
`_ExprTransformer` / `_DocTransformer` and each public entry point becomes a
Lean function over explicit data.  Machine-level details that carry no
semantic content for the properties below (source positions, the concrete
lark parse trees, the memoized parser cache) are abstracted: positions are
dropped, and the external concrete-parser service is a function parameter.
Exceptions raised by the Python code become `Except Err` results; the `Err`
inductive mirrors the diagnostic taxonomy of `WDL.Error` with the exact
message strings used by `_parser.py`.
-/

namespace MiniWDL

/-- Diagnostic taxonomy raised by the lowering engine (`WDL.Error` constructors
as used from `_parser.py`).  `syntaxError` carries the message, the effective
version and the declared version, as in
`Error.SyntaxError(pos, msg, version, declared_version)`.  `internal` stands
for Python-level runtime failures (failed `assert`, bad tuple unpacking) that
the grammar makes unreachable. -/
inductive Err where
  | syntaxError (msg : String) (version : String) (declared : Option String)
  | validationError (msg : String)
  | invalidType (msg : String)
  | multipleDefinitions (msg : String)
  | badCharacterEncoding
  | internal
deriving DecidableEq, Repr

/-- WDL type AST (`WDL.Type` constructors as consumed by `_DocTransformer.type`):
atomic scalars with an optional flag, `Array` with optional/nonempty flags,
`Map`/`Pair` with an optional flag, and named struct-instance references. -/
inductive WDLType where
  | int (optional : Bool)
  | float (optional : Bool)
  | boolean (optional : Bool)
  | stringT (optional : Bool)
  | file (optional : Bool)
  | directory (optional : Bool)
  | array (item : WDLType) (optional : Bool) (nonempty : Bool)
  | map (key value : WDLType) (optional : Bool)
  | pair (left right : WDLType) (optional : Bool)
  | structInstance (name : String) (optional : Bool)
deriving DecidableEq, Repr

/-- Quantifier set produced by `_DocTransformer.optional` (`?` suffix),
source line 265. -/
def optionalQuant : List String := ["optional"]

/-- Quantifier set produced by `_DocTransformer.nonempty` (`+` suffix),
source line 268. -/
def nonemptyQuant : List String := ["nonempty"]

/-- Quantifier set produced by `_DocTransformer.optional_nonempty` (the grammar
lowers both combined suffix orders `+?` and `?+` to this one rule), source
line 271. -/
def optionalNonemptyQuant : List String := ["optional", "nonempty"]

/-- The map from an atomic scalar type name to its constructor, mirroring the
`atomic_types` dict of `_DocTransformer.type` (source lines 294-300).  Only
called when the name is in the applicable name list. -/
def atomicType (name : String) (optional : Bool) : WDLType :=
  if name = "Int" then .int optional
  else if name = "Float" then .float optional
  else if name = "Boolean" then .boolean optional
  else if name = "String" then .stringT optional
  else if name = "File" then .file optional
  else .directory optional

/-- Embedding of `_DocTransformer.type` (source lines 274-331).  In the Python
code `items` is `[name_token, param?, param2?, quantifier_set?]`; the trailing
quantifier set (if any) has already been popped here, and the positional type
parameters are passed as `params` (`param = params[0]?`, `param2 = params[1]?`;
the Python code likewise ignores anything past `items[2]`).  Quantifier sets
are lists of strings, used only through membership, mirroring the Python
`set`. -/
def lowerType (version : String) (name : String) (params : List WDLType)
    (quantifiers : List String) : Except Err WDLType :=
  let param := params[0]?
  let param2 := params[1]?
  if name = "Array" then
    if param.isNone || param2.isSome then
      .error (.invalidType "Array must have one type parameter")
    else if quantifiers.filter (fun q => ¬(q = "optional" ∨ q = "nonempty")) ≠ [] then
      .error (.validationError "invalid type quantifier(s) for Array")
    else
      match param with
      | some p => .ok (.array p (quantifiers.contains "optional") (quantifiers.contains "nonempty"))
      | none => .error (.invalidType "Array must have one type parameter")
  else if quantifiers.contains "nonempty" then
    .error (.invalidType ("invalid type quantifier(s) for " ++ name))
  else
    let atomicNames : List String :=
      ["Int", "Float", "Boolean", "String", "File"]
        ++ (if version = "draft-2" ∨ version = "1.0" ∨ version = "1.1" then [] else ["Directory"])
    if name ∈ atomicNames then
      if param.isSome || param2.isSome then
        .error (.invalidType (name ++ " type doesn\x27t accept parameters"))
      else
        .ok (atomicType name (quantifiers.contains "optional"))
    else if name = "Map" then
      match param, param2 with
      | some p, some p2 => .ok (.map p p2 (quantifiers.contains "optional"))
      | _, _ => .error (.invalidType "Map must have two type parameters")
    else if name = "Pair" then
      match param, param2 with
      | some p, some p2 => .ok (.pair p p2 (quantifiers.contains "optional"))
      | _, _ => .error (.invalidType "Pair must have two type parameters")
    else if param.isSome || param2.isSome then
      .error (.invalidType "Unexpected type parameter(s)")
    else
      .ok (.structInstance name (quantifiers.contains "optional"))

/-- C2: `Array[Int]` lowers with optional=false, nonempty=false; `Array[Int]+`
with nonempty=true; `Array[Int]?` with optional=true; both combined suffix
orders `+?` and `?+` reach the single `optional_nonempty` quantifier set and
yield optional=true, nonempty=true; and `Int+` (an atomic scalar with the
`nonempty` quantifier) raises InvalidType.  All of this holds under every
dialect version, as the relevant branches never consult the version. -/
theorem lowerType_array_quantifiers (version : String) :
    lowerType version "Array" [WDLType.int false] [] = .ok (.array (.int false) false false)
    ∧ lowerType version "Array" [WDLType.int false] nonemptyQuant
        = .ok (.array (.int false) false true)
    ∧ lowerType version "Array" [WDLType.int false] optionalQuant
        = .ok (.array (.int false) true false)
    ∧ lowerType version "Array" [WDLType.int false] optionalNonemptyQuant
        = .ok (.array (.int false) true true)
    ∧ lowerType version "Int" [] nonemptyQuant
        = .error (.invalidType "invalid type quantifier(s) for Int") := by
  refine ⟨rfl, rfl, rfl, rfl, rfl⟩

/-- An element of the `items` list handed to `_ExprTransformer.string` (source
lines 88-99): a raw token (delimiter or literal text segment), an
already-lowered placeholder, or an already-lowered bare embedded expression.
Placeholders and expressions are opaque here (identified by a tag), since the
string handler only repackages them. -/
inductive StrItem where
  | token (s : String)
  | placeholderItem (tag : Nat)
  | exprItem (tag : Nat)
deriving DecidableEq, Repr

/-- An element of the `parts` list built by `_ExprTransformer.string`: a raw
text segment (kept verbatim) or a placeholder (a bare embedded expression is
wrapped into a placeholder with empty options, source line 94). -/
inductive StrPart where
  | textPart (s : String)
  | placeholderPart (tag : Nat)
deriving DecidableEq, Repr

/-- Result of string lowering: `Expr.String` or `Expr.MultiLineString`. -/
inductive StringExpr where
  | stringNode (parts : List StrPart)
  | multiLineString (parts : List StrPart)
deriving DecidableEq, Repr

/-- Modelled from the spec: `Expr.String._decode_escapes` (module `WDL.Expr`,
not under src/) validates the escape sequences of a literal text segment and
fails on an invalid one; we model validity as every backslash introducing a
recognized escape lead character.  The claims below do not depend on the exact
recognized set. -/
def validEscapes : List Char → Bool
  | [] => true
  | '\\' :: [] => false
  | '\\' :: c :: rest =>
      (c ∈ ['n', 't', 'r', '\\', '\x27', '"', '~', '$', 'u', 'U', 'x', 'e', 'a', 'b', 'f',
        'v', '?', '0', '1', '2', '3', '4', '5', '6', '7']) && validEscapes rest
  | _ :: rest => validEscapes rest

/-- Modelled from the spec: escape validation on a whole segment (see
`validEscapes`). -/
def decodeEscapesOk (s : String) : Bool :=
  validEscapes s.toList

/-- The loop of `_ExprTransformer.string` (source lines 89-99) building the
`parts` list: a placeholder is appended as is, a bare embedded expression is
wrapped into a placeholder, and any other token has its escape sequences
validated (failure aborts lowering) while its original text is preserved. -/
def lowerStrParts : List StrItem → Except Err (List StrPart)
  | [] => .ok []
  | .placeholderItem t :: rest => do
      let parts ← lowerStrParts rest
      return .placeholderPart t :: parts
  | .exprItem t :: rest => do
      let parts ← lowerStrParts rest
      return .placeholderPart t :: parts
  | .token s :: rest =>
      if decodeEscapesOk s then do
        let parts ← lowerStrParts rest
        return .textPart s :: parts
      else
        .error .badCharacterEncoding

/-- Embedding of `_ExprTransformer.string` (source lines 88-113).  After the
parts are built, if the leading delimiter is `<<<` the handler consults
`self._version` (absent on a bare expression transformer, hence `Option`; the
Python truthiness guard `wdl_version and ...` is equivalent to membership of
the three early versions, since neither `None` nor `""` is among them): the
three earliest dialects raise a SyntaxError carrying the offending version,
every other case yields `Expr.MultiLineString`.  Otherwise the result is
`Expr.String`. -/
def lowerString (version : Option String) (items : List StrItem) : Except Err StringExpr :=
  match lowerStrParts items with
  | .error e => .error e
  | .ok parts =>
    if parts.head? = some (.textPart "<<<") then
      match version with
      | some v =>
          if v = "draft-2" ∨ v = "1.0" ∨ v = "1.1" then
            .error (.syntaxError "<<< multi-line strings >>> are not supported in this WDL version"
              v none)
          else .ok (.multiLineString parts)
      | none => .ok (.multiLineString parts)
    else .ok (.stringNode parts)

/-- C3: lowering a `<<<...>>>` string (leading delimiter token `<<<`, all
literal segments passing escape validation) raises a SyntaxError naming the
offending version when the effective dialect is one of the three earliest ones
(`draft-2`, `1.0`, `1.1`), and for every other dialect succeeds with a
multi-line-string node. -/
theorem lowerString_multiline_gate (v : String) (items : List StrItem) (parts : List StrPart)
    (hbuild : lowerStrParts items = .ok parts)
    (hhead : parts.head? = some (.textPart "<<<")) :
    ((v = "draft-2" ∨ v = "1.0" ∨ v = "1.1") →
      lowerString (some v) items
        = .error (.syntaxError "<<< multi-line strings >>> are not supported in this WDL version"
            v none))
    ∧ (¬(v = "draft-2" ∨ v = "1.0" ∨ v = "1.1") →
      lowerString (some v) items = .ok (.multiLineString parts)) := by
  constructor <;> intro hv <;> simp [lowerString, hbuild, hhead, hv]

/-- Witness for C3 at the spec's example `<<<hello>>>`: raises under dialect
`draft-2`, succeeds with a multi-line-string node under dialect `1.2`. -/
theorem lowerString_multiline_gate_witness :
    lowerString (some "draft-2")
        [.token "<<<", .token "hello", .token ">>>"]
      = .error (.syntaxError "<<< multi-line strings >>> are not supported in this WDL version"
          "draft-2" none)
    ∧ lowerString (some "1.2") [.token "<<<", .token "hello", .token ">>>"]
      = .ok (.multiLineString [.textPart "<<<", .textPart "hello", .textPart ">>>"]) :=
  ⟨(lowerString_multiline_gate "draft-2" [.token "<<<", .token "hello", .token ">>>"]
      [.textPart "<<<", .textPart "hello", .textPart ">>>"] rfl rfl).1
      (by decide),
    (lowerString_multiline_gate "1.2" [.token "<<<", .token "hello", .token ">>>"]
      [.textPart "<<<", .textPart "hello", .textPart ">>>"] rfl rfl).2
      (by decide)⟩

/-- Python's `x or default` on an optional string: the default is taken when
the value is absent or empty (falsy). -/
def pyOrStr (v : Option String) (d : String) : String :=
  match v with
  | none => d
  | some s => if s = "" then d else s

/-- Effective version of `parse_expr` (source line 675: `version or "1.0"`). -/
def parseExprEffectiveVersion (version : Option String) : String :=
  pyOrStr version "1.0"

/-- Effective version of `parse_tasks` (source line 760:
`version or "draft-2"`). -/
def parseTasksEffectiveVersion (version : Option String) : String :=
  pyOrStr version "draft-2"

/-- Effective version of `parse_bound_decl` (source line 764:
`version or "draft-2"`). -/
def parseBoundDeclEffectiveVersion (version : Option String) : String :=
  pyOrStr version "draft-2"

/-- Effective version of `parse_document` (source line 780:
`version or declared_version or "draft-2"`). -/
def parseDocumentEffectiveVersion (version : Option String) (declared : Option String) : String :=
  pyOrStr version (pyOrStr declared "draft-2")

/-- Python `txt.split("\n")` over the character list: split into lines at
every newline (an empty text gives one empty line, a trailing newline gives a
trailing empty line). -/
def pySplitLines : List Char → List (List Char)
  | [] => [[]]
  | '\n' :: rest => [] :: pySplitLines rest
  | c :: rest =>
    match pySplitLines rest with
    | [] => [[c]]
    | l :: ls => (c :: l) :: ls

/-- Python `line.strip()`: remove leading and trailing whitespace. -/
def pyStrip (cs : List Char) : List Char :=
  ((cs.dropWhile Char.isWhitespace).reverse.dropWhile Char.isWhitespace).reverse

/-- The version-declaration scan of `parse_document` (source lines 773-779),
over the list of lines of `txt.split("\n")`: strip each line; skip it while
blank or starting with `#`; at the first substantive line, return the text
after the 8-character prefix `version ` when present, and stop either way. -/
def scanDeclaredVersionLines : List (List Char) → Option String
  | [] => none
  | l :: rest =>
    let line := pyStrip l
    if line ≠ [] ∧ line.head? ≠ some '#' then
      if "version ".toList.isPrefixOf line then some (String.mk (line.drop 8)) else none
    else scanDeclaredVersionLines rest

/-- The declared-version resolution of `parse_document` (source lines
773-779). -/
def scanDeclaredVersion (txt : String) : Option String :=
  scanDeclaredVersionLines (pySplitLines txt.toList)

/-- A stripped line is substantive when it is non-blank and its first
character is not `#`. -/
def substantive (l : List Char) : Bool :=
  !l.isEmpty && l.head? != some '#'

/-- The first substantive line of the text, per the spec's description of the
scan: split into lines, strip each, take the first one that is neither blank
nor a comment. -/
def firstSubstantiveLine (txt : String) : Option (List Char) :=
  ((pySplitLines txt.toList).map pyStrip).find? substantive

theorem scanDeclaredVersionLines_eq_find (ls : List (List Char)) :
    scanDeclaredVersionLines ls
      = (((ls.map pyStrip).find? substantive).bind
          (fun l => if "version ".toList.isPrefixOf l then some (String.mk (l.drop 8))
            else none)) := by
  induction ls with
  | nil => rfl
  | cons l rest ih =>
    by_cases h : substantive (pyStrip l) = true
    · have h' : pyStrip l ≠ [] ∧ (pyStrip l).head? ≠ some '#' := by
        simpa [substantive, List.isEmpty_iff] using h
      simp [scanDeclaredVersionLines, List.find?_cons, h, h']
    · have h' : ¬(pyStrip l ≠ [] ∧ (pyStrip l).head? ≠ some '#') := by
        simpa [substantive, List.isEmpty_iff] using h
      simp [scanDeclaredVersionLines, List.find?_cons, h, h', ih]

/-- C8 (amended): the declared version exists iff the first substantive line
(skipping blank lines and lines whose first non-whitespace character is `#`)
begins with `version `, and it then equals the remainder of that
whitespace-stripped line after the 8-character prefix — with no further
trimming of the remainder (internal leading whitespace after the prefix is
kept; trailing whitespace is gone only because the whole line was stripped
first). -/
theorem scanDeclaredVersion_spec (txt : String) :
    scanDeclaredVersion txt
      = (firstSubstantiveLine txt).bind
          (fun l => if "version ".toList.isPrefixOf l then some (String.mk (l.drop 8))
            else none) :=
  scanDeclaredVersionLines_eq_find (pySplitLines txt.toList)

/-- C8 counterexample: on the input `version  1.1` (two spaces), the code
keeps the remainder of the line after the 8-character prefix verbatim, namely
` 1.1` with a leading space — not the whitespace-trimmed remainder `1.1` that
the claim asserts. -/
theorem scanDeclaredVersion_not_trimmed :
    scanDeclaredVersion "version  1.1" = some " 1.1" ∧ (" 1.1" : String) ≠ "1.1" := by
  constructor
  · decide
  · decide

/-- C5 counterexample: with no caller-supplied version and none declared in
the text, `parse_expr` resolves to dialect `1.0` while `parse_tasks` (and the
other two entry points) resolve to `draft-2`, so the four entry points do not
share one fixed legacy default. -/
theorem effectiveVersion_defaults_differ :
    parseExprEffectiveVersion none = "1.0"
    ∧ parseTasksEffectiveVersion none = "draft-2"
    ∧ ("1.0" : String) ≠ "draft-2" := by
  refine ⟨rfl, rfl, by decide⟩

/-- C5 (amended): with no caller-supplied version and no version declared in
the text, `parse_tasks`, `parse_bound_decl` and `parse_document` all default
to the fixed legacy dialect `draft-2`, while `parse_expr` alone defaults to
`1.0`. -/
theorem effectiveVersion_defaults (txt : String)
    (hnone : scanDeclaredVersion txt = none) :
    parseTasksEffectiveVersion none = "draft-2"
    ∧ parseBoundDeclEffectiveVersion none = "draft-2"
    ∧ parseDocumentEffectiveVersion none (scanDeclaredVersion txt) = "draft-2"
    ∧ parseExprEffectiveVersion none = "1.0" := by
  refine ⟨rfl, rfl, ?_, rfl⟩
  rw [hnone]
  rfl

/-- Witness for C5's amended theorem, on a text that declares no version. -/
theorem effectiveVersion_defaults_witness :
    parseTasksEffectiveVersion none = "draft-2"
    ∧ parseBoundDeclEffectiveVersion none = "draft-2"
    ∧ parseDocumentEffectiveVersion none (scanDeclaredVersion "task t {}") = "draft-2"
    ∧ parseExprEffectiveVersion none = "1.0" :=
  effectiveVersion_defaults "task t {}" (by decide)

/-- Namespace inference of `_DocTransformer.import_doc` (source lines
596-602), on the character list of the URI: take the text after the final `/`
(the whole string when there is none, mirroring the caught `ValueError` of
`rindex`), keep the part before the first `?`, then the part before the first
`.` (Python `split("?")[0].split(".")[0]`). -/
def importNamespaceChars (uri : List Char) : List Char :=
  let afterSlash := (uri.reverse.takeWhile (fun c => c ≠ '/')).reverse
  let beforeQuery := afterSlash.takeWhile (fun c => c ≠ '?')
  beforeQuery.takeWhile (fun c => c ≠ '.')

/-- Namespace inference from an import URI (source lines 596-602). -/
def importNamespace (uri : String) : String :=
  String.mk (importNamespaceChars uri.toList)

/-- An ASCII letter, as matched by the regex class `[a-zA-Z]`. -/
def isAsciiLetter (c : Char) : Bool :=
  ('a' ≤ c && c ≤ 'z') || ('A' ≤ c && c ≤ 'Z')

/-- The identifier check `regex.fullmatch("[a-zA-Z][a-zA-Z0-9_]*", namespace)`
of source line 603: a letter followed by letters, digits or underscores. -/
def wdlIdentOk (s : String) : Bool :=
  match s.toList with
  | [] => false
  | c :: rest => isAsciiLetter c && rest.all (fun c2 => isAsciiLetter c2 || c2.isDigit || c2 == '_')

/-- Import AST node (`Tree.DocImport` as constructed on source line 612; the
document reference filled in later is omitted). -/
structure DocImport where
  uri : String
  ns : String
  aliases : List (String × String)
deriving DecidableEq, Repr

/-- The diagnostic message of source lines 604-610. -/
def importDocNamespaceMsg : String :=
  "declare an import namespace that follows WDL name rules and isn\x27t a language keyword (import \"filename\" as some_namespace)"

/-- Embedding of `_DocTransformer.import_doc` (source lines 590-612).  The
namespace is the explicit alias token when present (`items[1]` a token),
otherwise it is inferred from the URI; it must match identifier syntax and
must not be a reserved keyword of the active dialect, else a SyntaxError is
raised. -/
def lowerImportDoc (keywords : List String) (version : String) (declared : Option String)
    (uri : String) (explicitNs : Option String) (aliases : List (String × String)) :
    Except Err DocImport :=
  let ns :=
    match explicitNs with
    | some a => a
    | none => importNamespace uri
  if ¬ wdlIdentOk ns ∨ ns ∈ keywords then
    .error (.syntaxError importDocNamespaceMsg version declared)
  else
    .ok ⟨uri, ns, aliases⟩

/-- C6: with no explicit alias the namespace is inferred from the URI (text
after the final `/`, then before the first `?`, then before the first `.`);
the inferred or explicit namespace must match letter-then-letters/digits/
underscores and not be a reserved keyword, else SyntaxError.  In particular
`dir/sub/pipeline.wdl?rev=2` infers namespace `pipeline`, and `1abc.wdl`
(namespace starting with a digit) raises SyntaxError for every keyword set. -/
theorem importDoc_namespace_rules (keywords : List String) (version : String)
    (declared : Option String) (uri : String) (aliases : List (String × String))
    (hkw : "pipeline" ∉ keywords) :
    (wdlIdentOk (importNamespace uri) → importNamespace uri ∉ keywords →
      lowerImportDoc keywords version declared uri none aliases
        = .ok ⟨uri, importNamespace uri, aliases⟩)
    ∧ (¬ wdlIdentOk (importNamespace uri) ∨ importNamespace uri ∈ keywords →
      lowerImportDoc keywords version declared uri none aliases
        = .error (.syntaxError importDocNamespaceMsg version declared))
    ∧ (∀ a : String, wdlIdentOk a → a ∉ keywords →
      lowerImportDoc keywords version declared uri (some a) aliases = .ok ⟨uri, a, aliases⟩)
    ∧ (∀ a : String, ¬ wdlIdentOk a ∨ a ∈ keywords →
      lowerImportDoc keywords version declared uri (some a) aliases
        = .error (.syntaxError importDocNamespaceMsg version declared))
    ∧ importNamespace "dir/sub/pipeline.wdl?rev=2" = "pipeline"
    ∧ lowerImportDoc keywords version declared "dir/sub/pipeline.wdl?rev=2" none aliases
        = .ok ⟨"dir/sub/pipeline.wdl?rev=2", "pipeline", aliases⟩
    ∧ lowerImportDoc keywords version declared "1abc.wdl" none aliases
        = .error (.syntaxError importDocNamespaceMsg version declared) := by
  have hpipe : importNamespace "dir/sub/pipeline.wdl?rev=2" = "pipeline" := by decide
  refine ⟨?_, ?_, ?_, ?_, hpipe, ?_, ?_⟩
  · intro hok hnk
    simp [lowerImportDoc, hok, hnk]
  · intro hbad
    simp only [lowerImportDoc]
    rw [if_pos hbad]
  · intro a hok hnk
    simp [lowerImportDoc, hok, hnk]
  · intro a hbad
    simp only [lowerImportDoc]
    rw [if_pos hbad]
  · simp only [lowerImportDoc, hpipe]
    rw [if_neg]
    push_neg
    exact ⟨by decide, hkw⟩
  · simp only [lowerImportDoc]
    rw [if_pos]
    left
    decide

/-- Witness for C6 at the spec's two example URIs, with a sample keyword
set. -/
theorem importDoc_namespace_rules_witness :
    importNamespace "dir/sub/pipeline.wdl?rev=2" = "pipeline"
    ∧ lowerImportDoc ["workflow", "task", "import"] "1.0" none "dir/sub/pipeline.wdl?rev=2"
        none [] = .ok ⟨"dir/sub/pipeline.wdl?rev=2", "pipeline", []⟩
    ∧ lowerImportDoc ["workflow", "task", "import"] "1.0" none "1abc.wdl" none []
        = .error (.syntaxError importDocNamespaceMsg "1.0" none) := by
  have h := importDoc_namespace_rules ["workflow", "task", "import"] "1.0" none "x.wdl" []
    (by decide)
  exact ⟨h.2.2.2.2.1, h.2.2.2.2.2.1, h.2.2.2.2.2.2⟩

/-- Lookup in an insertion-ordered association list modelling a Python dict. -/
def dictGet {α : Type} (d : List (String × α)) (k : String) : Option α :=
  match d with
  | [] => none
  | kv :: rest => if kv.1 = k then some kv.2 else dictGet rest k

/-- Python `d[k] = v` on an insertion-ordered dict: replace the value at the
first (and, for a dict, only) occurrence of the key, else append. -/
def dictSet {α : Type} (d : List (String × α)) (k : String) (v : α) : List (String × α) :=
  match d with
  | [] => [(k, v)]
  | kv :: rest => if kv.1 = k then (k, v) :: rest else kv :: dictSet rest k v

/-- Embedding of `_DocTransformer.runtime_section` (source lines 390-397): the
key/value pairs are folded into a dict with plain `d[k] = v` and no duplicate
check (the check is commented out in the source for compatibility), so a
repeated key silently overwrites — and the handler has no failure path at all,
which the return type records. -/
def runtimeSection {α : Type} (items : List (String × α)) : List (String × α) :=
  items.foldl (fun d kv => dictSet d kv.1 kv.2) []

/-- The value of the last occurrence of key `k` among the pairs, if any. -/
def lastValue {α : Type} (items : List (String × α)) (k : String) : Option α :=
  (items.reverse.find? (fun kv => kv.1 == k)).map Prod.snd

/-- The duplicate-rejecting dict-building loop shared (textually) by
`meta_object` (source lines 369-375) and the binding loop of `call_inputs`
(source lines 458-461): each key is checked against the dict built so far and
a duplicate raises, with a message depending on the caller. -/
def dictFoldNoDup {α : Type} (mkErr : String → Err) (d : List (String × α)) :
    List (String × α) → Except Err (List (String × α))
  | [] => .ok d
  | (k, v) :: rest =>
    if (dictGet d k).isSome then .error (mkErr k)
    else dictFoldNoDup mkErr (d ++ [(k, v)]) rest

/-- Embedding of `_DocTransformer.meta_object` (source lines 369-375):
duplicate keys raise MultipleDefinitions. -/
def metaObject {α : Type} (items : List (String × α)) : Except Err (List (String × α)) :=
  dictFoldNoDup (fun _ => .multipleDefinitions "duplicate keys in meta object") [] items

/-- An element of the `items` list handed to `_DocTransformer.call_inputs`:
the `input:` marker produced by `input_colon` (source line 441) or a
key/expression binding produced by `call_input`. -/
inductive CallInputItem (α : Type) where
  | marker
  | kv (k : String) (v : α)
deriving DecidableEq, Repr

/-- The binding loop of `call_inputs` (source lines 458-461); a marker past
the head position would fail Python tuple unpacking (grammar-unreachable). -/
def callInputsGo {α : Type} (d : List (String × α)) :
    List (CallInputItem α) → Except Err (List (String × α))
  | [] => .ok d
  | .marker :: _ => .error .internal
  | .kv k v :: rest =>
    if (dictGet d k).isSome then
      .error (.multipleDefinitions ("duplicate call input \x27" ++ k ++ "\x27"))
    else callInputsGo (d ++ [(k, v)]) rest

/-- Embedding of `_DocTransformer.call_inputs` (source lines 444-462): on a
non-empty item list, an `input:` marker at the head is consumed; when the
effective version is exactly `"1.1"` and the marker is absent, a SyntaxError
is raised; then the bindings are folded with duplicate-key rejection. -/
def lowerCallInputs {α : Type} (version : String) (declared : Option String)
    (items : List (CallInputItem α)) : Except Err (List (String × α)) :=
  match items with
  | [] => .ok []
  | .marker :: rest => callInputsGo [] rest
  | first :: rest =>
    if version = "1.1" then
      .error (.syntaxError "WDL 1.1 calls require input: keyword" version declared)
    else callInputsGo [] (first :: rest)

/-- Declaration AST (`Tree.Decl` as consumed by `_DocTransformer.struct`):
type, name, optional bound expression (opaque tag). -/
structure WDecl where
  ty : WDLType
  name : String
  expr : Option Nat
deriving DecidableEq, Repr

/-- The member loop of `_DocTransformer.struct` (source lines 575-582): each
member must be unbound (`assert not d.expr`), and a duplicate member name
raises MultipleDefinitions. -/
def structMembersGo (members : List (String × WDLType)) :
    List WDecl → Except Err (List (String × WDLType))
  | [] => .ok members
  | d :: rest =>
    if d.expr.isSome then .error .internal
    else if (dictGet members d.name).isSome then
      .error (.multipleDefinitions ("duplicate struct member \x27" ++ d.name ++ "\x27"))
    else structMembersGo (members ++ [(d.name, d.ty)]) rest

/-- Struct type definition AST (`Tree.StructTypeDef`, source line 583). -/
structure WStruct where
  name : String
  members : List (String × WDLType)
deriving DecidableEq, Repr

/-- The message of `_DocTransformer._check_keyword` (source lines 238-242). -/
def keywordMsg (name : String) : String :=
  "unexpected keyword " ++ name

/-- Embedding of `_DocTransformer.struct` (source lines 571-583): the struct
name is checked against the keyword set first, then members are folded with
duplicate rejection. -/
def lowerStruct (keywords : List String) (version : String) (declared : Option String)
    (name : String) (decls : List WDecl) : Except Err WStruct :=
  if name ∈ keywords then .error (.syntaxError (keywordMsg name) version declared)
  else
    match structMembersGo [] decls with
    | .error e => .error e
    | .ok members => .ok ⟨name, members⟩

theorem dictGet_dictSet {α : Type} (d : List (String × α)) (k k' : String) (v : α) :
    dictGet (dictSet d k v) k' = if k' = k then some v else dictGet d k' := by
  induction d with
  | nil =>
    by_cases h : k' = k
    · subst h; simp [dictGet, dictSet]
    · have h3 : ¬(k = k') := fun hh => h hh.symm
      simp [dictGet, dictSet, h, h3]
  | cons kv rest ih =>
    by_cases h1 : kv.1 = k
    · have h1' : dictSet (kv :: rest) k v = (k, v) :: rest := by simp [dictSet, h1]
      rw [h1']
      by_cases h2 : k' = k
      · subst h2; simp [dictGet]
      · have hkk' : ¬(k = k') := fun hh => h2 hh.symm
        have hkv : ¬(kv.1 = k') := by rw [h1]; exact hkk'
        simp [dictGet, hkk', h2, hkv]
    · have h1' : dictSet (kv :: rest) k v = kv :: dictSet rest k v := by simp [dictSet, h1]
      rw [h1']
      by_cases h5 : kv.1 = k'
      · have h2 : ¬(k' = k) := fun hh => h1 (h5.trans hh)
        simp [dictGet, h5, h2]
      · simp [dictGet, h5, ih]

theorem dictGet_foldl_dictSet {α : Type} (items : List (String × α))
    (d : List (String × α)) (k : String) :
    dictGet (items.foldl (fun d kv => dictSet d kv.1 kv.2) d) k
      = ((items.reverse.find? (fun kv => kv.1 == k)).map Prod.snd).orElse
          (fun _ => dictGet d k) := by
  induction items generalizing d with
  | nil => simp [Option.orElse]
  | cons kv rest ih =>
    simp only [List.foldl_cons, List.reverse_cons, List.find?_append]
    rw [ih]
    cases hfind : rest.reverse.find? (fun kv2 => kv2.1 == k) with
    | some kv2 => simp [Option.orElse]
    | none =>
      by_cases hk : kv.1 = k
      · have hb : (kv.1 == k) = true := by simp [hk]
        have hk' : k = kv.1 := hk.symm
        simp [Option.orElse, hfind, List.find?, hb, dictGet_dictSet, hk']
      · have hb : (kv.1 == k) = false := by simp [hk]
        have hk' : ¬(k = kv.1) := fun hh => hk hh.symm
        simp [Option.orElse, hfind, List.find?, hb, dictGet_dictSet, hk']

theorem dictGet_isSome_iff {α : Type} (d : List (String × α)) (k : String) :
    (dictGet d k).isSome = true ↔ k ∈ d.map Prod.fst := by
  induction d with
  | nil => simp [dictGet]
  | cons kv rest ih =>
    by_cases h : kv.1 = k
    · subst h
      simp [dictGet]
    · have h' : ¬(k = kv.1) := fun hh => h hh.symm
      simp [dictGet, h, h', ih]

theorem dictFoldNoDup_ok {α : Type} (mkErr : String → Err) (items d : List (String × α))
    (h : ((d ++ items).map Prod.fst).Nodup) :
    dictFoldNoDup mkErr d items = .ok (d ++ items) := by
  induction items generalizing d with
  | nil => simp [dictFoldNoDup]
  | cons kv rest ih =>
    obtain ⟨k, v⟩ := kv
    have hnotin : k ∉ d.map Prod.fst := by
      intro hmem
      rw [List.map_append] at h
      rcases List.nodup_append.mp h with ⟨-, -, hdisj⟩
      exact hdisj hmem (by simp)
    have hget : ¬((dictGet d k).isSome = true) := by
      rw [dictGet_isSome_iff]; exact hnotin
    have h' : (((d ++ [(k, v)]) ++ rest).map Prod.fst).Nodup := by
      rw [← List.append_cons]; exact h
    simp only [dictFoldNoDup]
    rw [if_neg hget, ih _ h', ← List.append_cons]

theorem dictFoldNoDup_err {α : Type} (mkErr : String → Err) (items d : List (String × α))
    (hd : (d.map Prod.fst).Nodup) (h : ¬((d ++ items).map Prod.fst).Nodup) :
    ∃ k, dictFoldNoDup mkErr d items = .error (mkErr k) := by
  induction items generalizing d with
  | nil => exact absurd hd (by simpa using h)
  | cons kv rest ih =>
    obtain ⟨k, v⟩ := kv
    by_cases hmem : k ∈ d.map Prod.fst
    · have hget : (dictGet d k).isSome = true := (dictGet_isSome_iff d k).mpr hmem
      exact ⟨k, by simp [dictFoldNoDup, hget]⟩
    · have hget : ¬((dictGet d k).isSome = true) := by
        rw [dictGet_isSome_iff]; exact hmem
      have hd' : ((d ++ [(k, v)]).map Prod.fst).Nodup := by
        rw [List.map_append]
        refine List.nodup_append.mpr ⟨hd, by simp, ?_⟩
        intro a ha hb
        simp only [List.map_cons, List.map_nil, List.mem_singleton] at hb
        subst hb
        exact hmem ha
      have h' : ¬((((d ++ [(k, v)]) ++ rest).map Prod.fst).Nodup) := by
        rw [← List.append_cons]; exact h
      obtain ⟨kk, hkk⟩ := ih (d ++ [(k, v)]) hd' h'
      refine ⟨kk, ?_⟩
      simp only [dictFoldNoDup]
      rw [if_neg (by simp [hget]), hkk]

theorem callInputsGo_eq_fold {α : Type} (kvs d : List (String × α)) :
    callInputsGo d (kvs.map fun kv => CallInputItem.kv kv.1 kv.2)
      = dictFoldNoDup
          (fun k => .multipleDefinitions ("duplicate call input \x27" ++ k ++ "\x27")) d kvs := by
  induction kvs generalizing d with
  | nil => rfl
  | cons kv rest ih =>
    obtain ⟨k, v⟩ := kv
    by_cases hget : (dictGet d k).isSome = true
    · simp [callInputsGo, dictFoldNoDup, hget]
    · simp [callInputsGo, dictFoldNoDup, hget, ih]

theorem structMembersGo_eq_fold (decls : List WDecl) :
    ∀ members : List (String × WDLType), (∀ d ∈ decls, d.expr = none) →
    structMembersGo members decls
      = dictFoldNoDup
          (fun k => .multipleDefinitions ("duplicate struct member \x27" ++ k ++ "\x27"))
          members (decls.map fun d => (d.name, d.ty)) := by
  induction decls with
  | nil => intro members _; rfl
  | cons dd rest ih =>
    intro members h
    have hdd : dd.expr = none := h dd (by simp)
    have hrest : ∀ d ∈ rest, d.expr = none := fun d hd => h d (by simp [hd])
    by_cases hget : (dictGet members dd.name).isSome = true
    · simp [structMembersGo, dictFoldNoDup, hdd, hget]
    · simp [structMembersGo, dictFoldNoDup, hdd, hget, ih _ hrest]

/-- C7: the runtime-settings mapping is folded with last-write-wins semantics
and has no failure path (its return type is a plain dict), each key reading
back the value of its last occurrence; whereas duplicate keys in a meta
object, among a call's input bindings, or among a struct's members raise
MultipleDefinitions. -/
theorem runtimeSection_lastwins_others_reject :
    (∀ (α : Type) (items : List (String × α)) (k : String),
      dictGet (runtimeSection items) k = lastValue items k)
    ∧ (∀ (α : Type) (entries : List (String × α)),
        ¬(entries.map Prod.fst).Nodup →
        metaObject entries = .error (.multipleDefinitions "duplicate keys in meta object"))
    ∧ (∀ (α : Type) (version : String) (declared : Option String) (kvs : List (String × α)),
        ¬(kvs.map Prod.fst).Nodup →
        ∃ k, lowerCallInputs version declared
            (CallInputItem.marker :: kvs.map fun kv => CallInputItem.kv kv.1 kv.2)
          = .error (.multipleDefinitions ("duplicate call input \x27" ++ k ++ "\x27")))
    ∧ (∀ (keywords : List String) (version : String) (declared : Option String)
          (sname : String) (decls : List WDecl),
        sname ∉ keywords → (∀ d ∈ decls, d.expr = none) →
        ¬(decls.map WDecl.name).Nodup →
        ∃ k, lowerStruct keywords version declared sname decls
          = .error (.multipleDefinitions ("duplicate struct member \x27" ++ k ++ "\x27"))) := by
  refine ⟨?_, ?_, ?_, ?_⟩
  · intro α items k
    have h := dictGet_foldl_dictSet items ([] : List (String × α)) k
    simp only [runtimeSection, lastValue, h, dictGet]
    cases (items.reverse.find? (fun kv => kv.1 == k)) <;> simp [Option.orElse]
  · intro α entries hdup
    obtain ⟨k, hk⟩ :=
      dictFoldNoDup_err (fun _ => Err.multipleDefinitions "duplicate keys in meta object")
        entries [] (by simp) (by simpa using hdup)
    exact hk
  · intro α version declared kvs hdup
    obtain ⟨k, hk⟩ :=
      dictFoldNoDup_err
        (fun k => Err.multipleDefinitions ("duplicate call input \x27" ++ k ++ "\x27"))
        kvs [] (by simp) (by simpa using hdup)
    refine ⟨k, ?_⟩
    show callInputsGo [] (kvs.map fun kv => CallInputItem.kv kv.1 kv.2) = _
    rw [callInputsGo_eq_fold, hk]
  · intro keywords version declared sname decls hkw hunbound hdup
    have hdup' : ¬(((decls.map fun d => (d.name, d.ty)).map Prod.fst).Nodup) := by
      rw [List.map_map]
      simpa [Function.comp] using hdup
    obtain ⟨k, hk⟩ :=
      dictFoldNoDup_err
        (fun k => Err.multipleDefinitions ("duplicate struct member \x27" ++ k ++ "\x27"))
        (decls.map fun d => (d.name, d.ty)) [] (by simp) (by simpa using hdup')
    refine ⟨k, ?_⟩
    simp [lowerStruct, hkw, structMembersGo_eq_fold decls [] hunbound, hk]

/-- Witness for C7: a duplicated runtime key reads back its last value while
the same duplication in a meta object, a call input block, or a struct body
raises MultipleDefinitions. -/
theorem runtimeSection_lastwins_others_reject_witness :
    dictGet (runtimeSection [("a", 1), ("a", 2)]) "a" = some 2
    ∧ metaObject [("a", (1 : Nat)), ("a", 2)]
        = .error (.multipleDefinitions "duplicate keys in meta object")
    ∧ (∃ k, lowerCallInputs "draft-2" none
          [CallInputItem.marker, CallInputItem.kv "x" (1 : Nat), CallInputItem.kv "x" 2]
        = .error (.multipleDefinitions ("duplicate call input \x27" ++ k ++ "\x27")))
    ∧ (∃ k, lowerStruct [] "draft-2" none "S"
          [⟨.int false, "m", none⟩, ⟨.int false, "m", none⟩]
        = .error (.multipleDefinitions ("duplicate struct member \x27" ++ k ++ "\x27"))) := by
  obtain ⟨h1, h2, h3, h4⟩ := runtimeSection_lastwins_others_reject
  refine ⟨(h1 Nat [("a", 1), ("a", 2)] "a").trans (by decide), h2 Nat _ (by decide), ?_, ?_⟩
  · simpa using h3 Nat "draft-2" none [("x", 1), ("x", 2)] (by decide)
  · exact h4 [] "draft-2" none "S" [⟨.int false, "m", none⟩, ⟨.int false, "m", none⟩]
      (by simp) (by decide) (by decide)

/-- C4 counterexample: a call with a non-empty input-binding block and no
`input:` marker is accepted under dialect `1.0` (which belongs to the newest
major revision, `1.x`) and under the later dialect `1.2`, while only the
exact dialect `1.1` raises SyntaxError — so the claim's "every dialect of the
newest major revision or later" fails on both sides of `1.1`. -/
theorem callInputs_gate_only_1_1 :
    lowerCallInputs "1.0" none [CallInputItem.kv "x" (1 : Nat)] = .ok [("x", 1)]
    ∧ lowerCallInputs "1.2" none [CallInputItem.kv "x" (1 : Nat)] = .ok [("x", 1)]
    ∧ lowerCallInputs "1.1" none [CallInputItem.kv "x" (1 : Nat)]
        = .error (.syntaxError "WDL 1.1 calls require input: keyword" "1.1" none) := by
  refine ⟨rfl, rfl, rfl⟩

/-- C4 (amended): a call whose input-binding block is non-empty and lacks the
`input:` marker raises SyntaxError exactly when the effective dialect is
`1.1`; every other dialect, older or newer, accepts it, and with the marker
present every dialect accepts it. -/
theorem callInputs_marker_gate {α : Type} (version : String) (declared : Option String)
    (kvs : List (String × α)) (hne : kvs ≠ []) (hnd : (kvs.map Prod.fst).Nodup) :
    (lowerCallInputs version declared (kvs.map fun kv => CallInputItem.kv kv.1 kv.2)
        = if version = "1.1" then
            .error (.syntaxError "WDL 1.1 calls require input: keyword" version declared)
          else .ok kvs)
    ∧ lowerCallInputs version declared
        (CallInputItem.marker :: kvs.map fun kv => CallInputItem.kv kv.1 kv.2) = .ok kvs := by
  have hok : callInputsGo [] (kvs.map fun kv => CallInputItem.kv kv.1 kv.2) = .ok kvs := by
    rw [callInputsGo_eq_fold]
    simpa using
      dictFoldNoDup_ok
        (fun k => Err.multipleDefinitions ("duplicate call input \x27" ++ k ++ "\x27"))
        kvs [] (by simpa using hnd)
  obtain ⟨kv, rest, rfl⟩ : ∃ kv rest, kvs = kv :: rest := by
    cases kvs with
    | nil => exact absurd rfl hne
    | cons a b => exact ⟨a, b, rfl⟩
  constructor
  · by_cases hv : version = "1.1"
    · simp [lowerCallInputs, hv]
    · rw [if_neg hv]
      simp only [List.map_cons] at hok ⊢
      simpa [lowerCallInputs, hv] using hok
  · simpa [lowerCallInputs] using hok

/-- Witness for C4's amended theorem at a one-binding block. -/
theorem callInputs_marker_gate_witness :
    lowerCallInputs "1.1" none [CallInputItem.kv "y" (2 : Nat)]
        = .error (.syntaxError "WDL 1.1 calls require input: keyword" "1.1" none)
    ∧ lowerCallInputs "1.0" none [CallInputItem.kv "y" (2 : Nat)] = .ok [("y", 2)]
    ∧ lowerCallInputs "1.0" none [CallInputItem.marker, CallInputItem.kv "y" (2 : Nat)]
        = .ok [("y", 2)] := by
  have h1 := callInputs_marker_gate "1.1" none [("y", (2 : Nat))] (by simp) (by simp)
  have h2 := callInputs_marker_gate "1.0" none [("y", (2 : Nat))] (by simp) (by simp)
  exact ⟨by simpa using h1.1, by simpa using h2.1, by simpa using h2.2⟩

/-- Task AST node, opaque but for its name (only classification matters to
document assembly). -/
structure WTask where
  name : String
deriving DecidableEq, Repr

/-- Workflow AST node, opaque but for its name. -/
structure WWorkflow where
  name : String
deriving DecidableEq, Repr

/-- A top-level item of the `items` list handed to `_DocTransformer.document`
(source lines 614-639): a task, a workflow, a struct type definition, the
version-declaration marker subtree (discarded), or an import. -/
inductive DocItem where
  | task (t : WTask)
  | workflow (w : WWorkflow)
  | structDef (s : WStruct)
  | versionMarker
  | imp (i : DocImport)
deriving DecidableEq, Repr

/-- Document AST (`Tree.Document` as constructed on source lines 655-664);
comments are kept as their raw text (their position plumbing is pure data
movement). -/
structure WDoc where
  sourceText : String
  imports : List DocImport
  structs : List (String × WStruct)
  tasks : List WTask
  workflow : Option WWorkflow
  comments : List String
  declaredVersion : Option String
deriving DecidableEq, Repr

/-- The classification loop of `_DocTransformer.document` (source lines
615-639): tasks and imports accumulate in order, a second workflow raises
MultipleDefinitions, a repeated struct name raises MultipleDefinitions, and
the version marker is skipped. -/
def documentGo (imports : List DocImport) (structs : List (String × WStruct))
    (tasks : List WTask) (workflow : Option WWorkflow) :
    List DocItem →
      Except Err (List DocImport × List (String × WStruct) × List WTask × Option WWorkflow)
  | [] => .ok (imports, structs, tasks, workflow)
  | .task t :: rest => documentGo imports structs (tasks ++ [t]) workflow rest
  | .workflow w :: rest =>
    match workflow with
    | some _ => .error (.multipleDefinitions "Document has multiple workflows")
    | none => documentGo imports structs tasks (some w) rest
  | .structDef s :: rest =>
    if (dictGet structs s.name).isSome then
      .error (.multipleDefinitions ("multiple structs named " ++ s.name))
    else documentGo imports (structs ++ [(s.name, s)]) tasks workflow rest
  | .versionMarker :: rest => documentGo imports structs tasks workflow rest
  | .imp i :: rest => documentGo (imports ++ [i]) structs tasks workflow rest

/-- Embedding of `_DocTransformer.document` (source lines 614-664).  The
`version` parameter records that the transformer carries the effective
dialect, which this method never consults — the theorem below holds for every
value of it. -/
def lowerDocument (version : String) (declared : Option String) (sourceText : String)
    (comments : List String) (items : List DocItem) : Except Err WDoc :=
  match documentGo [] [] [] none items with
  | .error e => .error e
  | .ok (imports, structs, tasks, workflow) =>
    .ok ⟨sourceText, imports, structs, tasks, workflow, comments, declared⟩

/-- The number of workflow definitions among top-level items. -/
def countWorkflows : List DocItem → Nat
  | [] => 0
  | .workflow _ :: rest => countWorkflows rest + 1
  | _ :: rest => countWorkflows rest

theorem structMsg_ne_wfMsg (n : String) :
    "multiple structs named " ++ n ≠ "Document has multiple workflows" := by
  intro h
  have h2 : ("multiple structs named " ++ n).data.head?
      = ("Document has multiple workflows").data.head? := by rw [h]
  rw [String.data_append] at h2
  have e1 : ("multiple structs named ").data.head? = some 'm' := rfl
  have e2 : ("Document has multiple workflows").data.head? = some 'D' := rfl
  rw [List.head?_append, e1, e2] at h2
  simp at h2

theorem documentGo_two_workflows (items : List DocItem) :
    ∀ (imports : List DocImport) (structs : List (String × WStruct)) (tasks : List WTask)
      (workflow : Option WWorkflow),
    2 ≤ countWorkflows items + (if workflow.isSome then 1 else 0) →
    ∃ msg, documentGo imports structs tasks workflow items
      = .error (.multipleDefinitions msg) := by
  induction items with
  | nil =>
    intro imports structs tasks workflow h
    cases workflow <;> simp [countWorkflows] at h
  | cons item rest ih =>
    intro imports structs tasks workflow h
    cases item with
    | task t => exact ih _ _ _ _ (by simpa [countWorkflows] using h)
    | workflow w =>
      cases workflow with
      | some w0 => exact ⟨"Document has multiple workflows", by simp [documentGo]⟩
      | none =>
        refine ih imports structs tasks (some w) ?_
        simp [countWorkflows] at h ⊢
        omega
    | structDef s =>
      by_cases hdup : (dictGet structs s.name).isSome = true
      · exact ⟨"multiple structs named " ++ s.name, by simp [documentGo, hdup]⟩
      · obtain ⟨msg, hmsg⟩ := ih imports (structs ++ [(s.name, s)]) tasks workflow
          (by simpa [countWorkflows] using h)
        exact ⟨msg, by simp [documentGo, hdup, hmsg]⟩
    | versionMarker => exact ih _ _ _ _ (by simpa [countWorkflows] using h)
    | imp i => exact ih _ _ _ _ (by simpa [countWorkflows] using h)

theorem documentGo_single_workflow (items : List DocItem) :
    ∀ (imports : List DocImport) (structs : List (String × WStruct)) (tasks : List WTask)
      (workflow : Option WWorkflow),
    countWorkflows items + (if workflow.isSome then 1 else 0) ≤ 1 →
    documentGo imports structs tasks workflow items
      ≠ .error (.multipleDefinitions "Document has multiple workflows") := by
  induction items with
  | nil =>
    intro imports structs tasks workflow _
    simp [documentGo]
  | cons item rest ih =>
    intro imports structs tasks workflow h
    cases item with
    | task t => exact ih _ _ _ _ (by simpa [countWorkflows] using h)
    | workflow w =>
      cases workflow with
      | some w0 => simp [countWorkflows] at h
      | none =>
        refine ih imports structs tasks (some w) ?_
        simp [countWorkflows] at h ⊢
        omega
    | structDef s =>
      by_cases hdup : (dictGet structs s.name).isSome = true
      · intro hcontra
        simp only [documentGo, hdup, if_pos] at hcontra
        exact structMsg_ne_wfMsg s.name
          (Err.multipleDefinitions.inj (Except.error.inj hcontra))
      · intro hcontra
        rw [show documentGo imports structs tasks workflow (DocItem.structDef s :: rest)
            = documentGo imports (structs ++ [(s.name, s)]) tasks workflow rest by
          simp [documentGo, hdup]] at hcontra
        exact ih _ _ _ _ (by simpa [countWorkflows] using h) hcontra
    | versionMarker => exact ih _ _ _ _ (by simpa [countWorkflows] using h)
    | imp i => exact ih _ _ _ _ (by simpa [countWorkflows] using h)

/-- C1: under every dialect version, a document whose top-level items contain
two (or more) workflow definitions makes `document` lowering raise
MultipleDefinitions; with at most one workflow, the workflow-count diagnostic
("Document has multiple workflows") is never raised — any failure can only be
a different MultipleDefinitions (repeated struct name). -/
theorem lowerDocument_workflow_count (version : String) (declared : Option String)
    (sourceText : String) (comments : List String) (items : List DocItem) :
    (2 ≤ countWorkflows items →
      ∃ msg, lowerDocument version declared sourceText comments items
        = .error (.multipleDefinitions msg))
    ∧ (countWorkflows items ≤ 1 →
      lowerDocument version declared sourceText comments items
        ≠ .error (.multipleDefinitions "Document has multiple workflows")) := by
  constructor
  · intro h
    obtain ⟨msg, hmsg⟩ := documentGo_two_workflows items [] [] [] none (by simpa using h)
    exact ⟨msg, by simp [lowerDocument, hmsg]⟩
  · intro h hcontra
    have hne := documentGo_single_workflow items [] [] [] none (by simpa using h)
    cases hgo : documentGo [] [] [] none items with
    | error e =>
      have he : e = Err.multipleDefinitions "Document has multiple workflows" := by
        rw [show lowerDocument version declared sourceText comments items = .error e by
          simp [lowerDocument, hgo]] at hcontra
        exact Except.error.inj hcontra
      exact hne (by rw [hgo, he])
    | ok val =>
      obtain ⟨i2, s2, t2, w2⟩ := val
      simp [lowerDocument, hgo] at hcontra

/-- Witness for C1: two workflows raise MultipleDefinitions; one workflow
(next to a task) does not raise the workflow-count diagnostic. -/
theorem lowerDocument_workflow_count_witness :
    (∃ msg, lowerDocument "1.0" none "" []
        [.workflow ⟨"a"⟩, .workflow ⟨"b"⟩] = .error (.multipleDefinitions msg))
    ∧ lowerDocument "1.0" none "" [] [.task ⟨"t"⟩, .workflow ⟨"a"⟩]
        ≠ .error (.multipleDefinitions "Document has multiple workflows") :=
  ⟨(lowerDocument_workflow_count "1.0" none "" [] [.workflow ⟨"a"⟩, .workflow ⟨"b"⟩]).1
      (by decide),
    (lowerDocument_workflow_count "1.0" none "" [] [.task ⟨"t"⟩, .workflow ⟨"a"⟩]).2
      (by decide)⟩

/-- The external collaborators of `parse_document`: the grammar registry's
registered version strings (`_grammar.versions`, consulted by
`_parse_doctransformer` via `_grammar.get`), and the combined
concrete-parse-then-transform step for the `document` start symbol (the lark
parse of source line 724 plus the `_DocTransformer` walk), taking the
effective version, the declared version and the text. -/
structure Collab where
  versions : List String
  runDoc : String → Option String → String → Except Err WDoc

/-- Embedding of `_parse_doctransformer` for the `document` start symbol
(source lines 705-756): an unregistered effective version raises SyntaxError
before any parsing; otherwise the collaborator runs (its own failures pass
through). -/
def parseDocTransformerDoc (c : Collab) (txt : String) (version : String)
    (declared : Option String) : Except Err WDoc :=
  if version ∈ c.versions then c.runDoc version declared txt
  else
    .error (.syntaxError
      ("unknown WDL version " ++ version ++ "; choices: " ++ String.intercalate ", " c.versions)
      version declared)

/-- Embedding of `parse_document` (source lines 767-784): empty or
whitespace-only text short-circuits to an empty Document; otherwise the
declared version is scanned, the effective version resolved
(`version or declared_version or "draft-2"`), and lowering delegated. -/
def parseDocument (c : Collab) (txt : String) (version : Option String) : Except Err WDoc :=
  if pyStrip txt.toList = [] then
    .ok ⟨txt, [], [], [], none, [], none⟩
  else
    let declared := scanDeclaredVersion txt
    parseDocTransformerDoc c txt (parseDocumentEffectiveVersion version declared) declared

/-- C9: on empty or whitespace-only input, `parse_document` returns a
Document with no imports, structs, tasks, workflow or comments and no
declared version — for every registry and parser collaborator (both are
universally quantified, so neither is consulted and no version or syntax
diagnostic can arise). -/
theorem parseDocument_empty (c : Collab) (txt : String) (version : Option String)
    (h : pyStrip txt.toList = []) :
    parseDocument c txt version = .ok ⟨txt, [], [], [], none, [], none⟩ := by
  unfold parseDocument
  rw [if_pos h]

/-- Witness for C9 on whitespace-only input, with a collaborator that fails
on every version and every text. -/
theorem parseDocument_empty_witness :
    parseDocument ⟨[], fun _ _ _ => .error .internal⟩ " \n\t" none
      = .ok ⟨" \n\t", [], [], [], none, [], none⟩ :=
  parseDocument_empty ⟨[], fun _ _ _ => .error .internal⟩ " \n\t" none (by decide)

/-- Embedding of the text normalization inside `parse` (source lines 28-30):
the concrete parser `p` (the memoized lark parser together with its
comment-capture callback, an external service here) is always handed
`txt + ("\n" if not txt.endswith("\n") else "")`.  The lock and the comment
buffer of `parse` serialize concurrent callers and do not affect the text
handed over. -/
def parseWithNewline {α : Type} (p : List Char → α) (txt : List Char) : α :=
  p (txt ++ (if txt.getLast? = some '\n' then [] else ['\n']))

/-- C10: the concrete parser always receives newline-terminated text, and for
every text not ending in a newline, parsing it and parsing it with a newline
appended hand the parser identical input, hence produce identical results
(same tree and same comment list, whatever the parser returns). -/
theorem parseWithNewline_normalizes {α : Type} (p : List Char → α) (txt : List Char) :
    (∃ s, s.getLast? = some '\n' ∧ parseWithNewline p txt = p s)
    ∧ (txt.getLast? ≠ some '\n' →
        parseWithNewline p txt = parseWithNewline p (txt ++ ['\n'])) := by
  constructor
  · by_cases h : txt.getLast? = some '\n'
    · exact ⟨txt, h, by simp [parseWithNewline, h]⟩
    · exact ⟨txt ++ ['\n'], by simp, by simp [parseWithNewline, h]⟩
  · intro h
    simp [parseWithNewline, h]

/-- Witness for C10 at the one-character text `a` and the identity parser. -/
theorem parseWithNewline_normalizes_witness :
    (∃ s, s.getLast? = some '\n' ∧ parseWithNewline id ['a'] = id s)
    ∧ parseWithNewline id ['a'] = parseWithNewline id (['a'] ++ ['\n']) :=
  ⟨(parseWithNewline_normalizes id ['a']).1,
    (parseWithNewline_normalizes id ['a']).2 (by decide)⟩

end MiniWDL

